import Mathlib

/-!
Verification development for the L.A.U.R.A. Raspberry-Pi client's
speech-capture core (`audio/speech_processor.py`).

The development shallowly embeds:
  * the transcript acceptance filter of timed (VAD) capture
    (`capture_speech_with_unified_vad`, lines 190-229),
  * the lighter filter of push-to-talk capture
    (`capture_speech_push_to_talk`, lines 296-311),
  * the per-iteration step of the timed capture loop (lines 97-188),
    including frame validation, energy smoothing, the VAD state machine
    and all exit conditions,
  * the per-iteration step of the push-to-talk loop (lines 263-294),
  * the orchestration around those loops (exit actions, finalization,
    the try/except/finally shell).

Machine integers and floats are modelled as `ℚ`; strings as `List Char`
with Python's `strip` / `lower` / `split` translated explicitly.  The
per-frame energy estimator of the source computes an RMS
(`sqrt(mean(float32(frame)**2))`), an irrational real in general; the
loop uses it only through order comparisons against rational thresholds,
so the embedding is parametric in an estimator `E : List ℤ → ℚ` and every
theorem holds for all estimators (concrete instances in witnesses use
values an RMS can attain, e.g. constant-sample frames).
-/

namespace LauraVad

/-! ## Python string primitives (`strip`, `lower`, `split`) on `List Char` -/

def isWs (c : Char) : Bool := c.isWhitespace

/-- Python `str.lstrip()` (no argument): drop leading whitespace. -/
def trimLeft (l : List Char) : List Char := l.dropWhile isWs

/-- Python `str.rstrip()` (no argument): drop trailing whitespace. -/
def trimRight (l : List Char) : List Char := (l.reverse.dropWhile isWs).reverse

/-- Python `str.strip()` (no argument). -/
def pyStrip (l : List Char) : List Char := trimRight (trimLeft l)

/-- Python `str.lower()` (source text is ASCII). -/
def pyLower (l : List Char) : List Char := l.map Char.toLower

/-- Python `str.split()` (no argument): split on whitespace runs,
dropping empty chunks. -/
def pyWords (l : List Char) : List (List Char) :=
  (l.splitOnP isWs).filter (fun w => w ≠ [])

/-! ## Transcript acceptance filters

`acceptTimed` is the filtering block of `capture_speech_with_unified_vad`
(speech_processor.py lines 194-229), applied to the raw value of
`transcriber.get_final_text()`; `acceptPushToTalk` is the lighter block of
`capture_speech_push_to_talk` (lines 300-311).  Branches appear in source
order. -/

def acceptTimed (raw : List Char) : Option (List Char) :=
  if raw = [] then none                      -- `if final_transcript:` fails, line 228 returns None
  else
    let t := pyStrip raw                     -- line 195
    if t = [] then none                      -- lines 198-200
    else if pyStrip (pyLower t) = "the".data then none   -- lines 203-205
    else if (pyWords t).length = 0 ∨ t.length < 2 then none  -- lines 213-215
    else if (pyWords t).length < 1 then none -- lines 217-219
    else if (pyWords t).length = 1 ∧ t.length < 2 then none  -- lines 221-223
    else some t                              -- line 226

def acceptPushToTalk (raw : List Char) : Option (List Char) :=
  if raw = [] then none                      -- `if final_transcript:` fails, line 311
  else
    let t := pyStrip raw                     -- line 301
    if pyStrip (pyLower t) = "the".data then none  -- lines 304-306
    else if t = [] then none                 -- inner `if final_transcript:` fails, line 311
    else some t                              -- line 309

/-! ## Configuration and collaborators -/

/-- Per-session VAD parameters (speech_processor.py lines 70-80 and the
audio manager's `sample_rate` / `frame_length` properties), together with
the session anchors fixed before the loop (`overall_start_time`,
`is_follow_up`). -/
structure VadConfig where
  energyThreshold : ℚ
  continuedThreshold : ℚ
  silenceDuration : ℚ
  minSpeechDuration : ℚ
  speechBufferTime : ℚ
  maxRecordingTime : ℚ
  sampleRate : ℚ
  frameLength : ℕ
  isFollowUp : Bool
  overallStart : ℚ
deriving DecidableEq

/-- Line 80: `initial_timeout = 4.0 if is_follow_up else 8.0`. -/
def initialTimeout (cfg : VadConfig) : ℚ := if cfg.isFollowUp then 4 else 8

/-- Line 93: `frames_per_second = sample_rate / frame_length`. -/
def framesPerSecond (cfg : VadConfig) : ℚ := cfg.sampleRate / (cfg.frameLength : ℚ)

/-- Python `int()` applied to a real value: truncation toward zero. -/
def pyInt (q : ℚ) : ℤ := if 0 ≤ q then ⌊q⌋ else ⌈q⌉

/-- Line 94: `silence_frames_needed = int(silence_duration * frames_per_second)`. -/
def silenceFramesNeeded (cfg : VadConfig) : ℤ :=
  pyInt (cfg.silenceDuration * framesPerSecond cfg)

/-- Modelled from the spec: §3's invariant
`silence_frames_needed = round(silence_duration × sample_rate / frame_length)`,
rounding to the nearest integer. -/
def silenceFramesNeededRounded (cfg : VadConfig) : ℤ :=
  round (cfg.silenceDuration * framesPerSecond cfg)

/-- What one `transcriber.process_frame` call yields: the triple
`(is_final, confidence, text)` of lines 142 / 285. -/
structure RecEvent where
  isFinal : Bool
  confidence : Option ℚ
  text : List Char
deriving DecidableEq

/-- The recognizer adapter, an external collaborator (spec §4.4, consumed
contract).  `processFrame` returning `none` as its event models a raised
`Exception` on that call (caught at lines 153-156 / 293-294); the adapter
state still advances to the returned state. -/
structure Transcriber (σ : Type) where
  init : σ
  processFrame : σ → List ℤ → σ × Option RecEvent
  getFinalText : σ → List Char

/-! ## Energy smoothing -/

/-- Frame-history capacity, line 77: `frame_history_length = 20`. -/
def frameHistoryLength : ℕ := 20

/-- Lines 135-137: append the reading; if the history exceeds capacity,
pop the oldest. -/
def pushHistory (h : List ℚ) (e : ℚ) : List ℚ :=
  let h' := h ++ [e]
  if frameHistoryLength < h'.length then h'.tail else h'

/-- Line 138: `avg_energy = sum(frame_history)/len(frame_history) if frame_history else 0.0`. -/
def avgEnergy (h : List ℚ) : ℚ := if h = [] then 0 else h.sum / (h.length : ℚ)

/-! ## Timed-capture session state and per-iteration step -/

/-- Mutable loop state of `capture_speech_with_unified_vad`
(lines 85-95 and 186-188).  `lastPrint` is `last_partial_print_time`
(absent attribute modelled as `none`). -/
structure SessState (σ : Type) where
  voiceStarted : Bool
  speechStart : ℚ
  silenceCount : ℕ
  frameHistory : List ℚ
  tstate : σ
  lastPrint : Option ℚ
deriving DecidableEq

/-- State at loop entry (lines 85-95): `transcriber.reset()`,
`speech_start_time = 0`, `voice_started = False`,
`silence_frames_count = 0`, `frame_history = []`. -/
def initState (T : Transcriber σ) : SessState σ :=
  { voiceStarted := false, speechStart := 0, silenceCount := 0,
    frameHistory := [], tstate := T.init, lastPrint := none }

/-- What one loop iteration observes: `time.monotonic()`, the keyboard
manual-stop poll, and `read_audio_frame()` (`none` = no frame buffered). -/
structure IterInput where
  now : ℚ
  manualStop : Bool
  read : Option (List ℤ)
deriving DecidableEq

/-- The six ways the timed loop is left (spec §4.3's `Ended(reason)`). -/
inductive ExitReason where
  | manualStopWithSpeech
  | manualStopWithoutSpeech
  | initialTimeout
  | maxDuration
  | silenceTimeout
  | recognizerFinal
deriving DecidableEq

/-- Result of one iteration: loop again with a new state, or leave the
loop (`break` / `return None`) for the given reason. -/
inductive StepResult (σ : Type) where
  | next : SessState σ → StepResult σ
  | ended : ExitReason → SessState σ → StepResult σ
deriving DecidableEq

/-- The state carried by a step result, whichever constructor. -/
def StepResult.state : StepResult σ → SessState σ
  | .next st => st
  | .ended _ st => st

/-- Line 146's confidence clause:
`confidence_score is None or confidence_score > 0.3`. -/
def confPasses (c : Option ℚ) : Bool :=
  match c with
  | none => true
  | some v => decide ((3 : ℚ)/10 < v)

/-- Lines 144-151: the `current_partial` display filter.  `none` for the
whole event models the caught per-frame recognizer error (lines 153-156),
which also forces `current_partial = None`. -/
def hintText (ev : Option RecEvent) : Option (List Char) :=
  match ev with
  | none => none
  | some e =>
    if e.text ≠ [] ∧ 0 < (pyStrip e.text).length then
      if confPasses e.confidence = true ∨ 2 ≤ (pyWords e.text).length then
        some (pyStrip e.text)
      else none
    else none

/-- Lines 185-188: rate-limited update of `last_partial_print_time`
(print no more than once per 0.5 s). -/
def updatePrint (now : ℚ) (hint : Option (List Char)) (lp : Option ℚ) : Option ℚ :=
  match hint with
  | none => lp
  | some _ =>
    match lp with
    | none => some now
    | some t => if (1 : ℚ)/2 < now - t then some now else lp

/-- Lines 129-188: processing of one size-valid frame — energy estimate,
history smoothing, recognizer advance, VAD state machine, end-condition
checks, partial display.  `E` is the energy estimator (source: RMS of the
normalized int16 samples, line 130-132). -/
def stepFrame (E : List ℤ → ℚ) (cfg : VadConfig) (T : Transcriber σ)
    (st : SessState σ) (now : ℚ) (b : List ℤ) : StepResult σ :=
  let hist := pushHistory st.frameHistory (E b)
  let avg := avgEnergy hist
  let pr := T.processFrame st.tstate b
  let isFinal := (pr.2.map RecEvent.isFinal).getD false
  let hint := hintText pr.2
  if st.voiceStarted = false then
    if cfg.energyThreshold < avg then
      -- lines 160-164: voice starts
      .next { st with
              voiceStarted := true
              speechStart := now
              silenceCount := 0
              frameHistory := hist
              tstate := pr.1
              lastPrint := updatePrint now hint st.lastPrint }
    else
      .next { st with
              frameHistory := hist
              tstate := pr.1
              lastPrint := updatePrint now hint st.lastPrint }
  else
    -- lines 166-182
    let cnt := if cfg.continuedThreshold < avg then 0 else st.silenceCount + 1
    let dur := now - st.speechStart
    let st' := { st with
                 silenceCount := cnt
                 frameHistory := hist
                 tstate := pr.1 }
    if silenceFramesNeeded cfg ≤ (cnt : ℤ) ∧ cfg.minSpeechDuration ≤ dur then
      .ended .silenceTimeout st'           -- lines 175-178 (break after buffer sleep)
    else if isFinal = true ∧ cfg.minSpeechDuration ≤ dur then
      .ended .recognizerFinal st'          -- lines 180-182
    else
      .next { st' with lastPrint := updatePrint now hint st.lastPrint }

/-- One iteration of the timed loop (lines 98-188), in source order:
manual-stop poll, initial-timeout check, max-duration check, frame read
(empty → yield and retry), frame-size validation, then `stepFrame`. -/
def stepTimed (E : List ℤ → ℚ) (cfg : VadConfig) (T : Transcriber σ)
    (st : SessState σ) (inp : IterInput) : StepResult σ :=
  if inp.manualStop = true then
    -- lines 101-107
    if st.voiceStarted = true ∧ cfg.minSpeechDuration < inp.now - st.speechStart then
      .ended .manualStopWithSpeech st
    else
      .ended .manualStopWithoutSpeech { st with tstate := T.init }
  else if st.voiceStarted = false ∧ initialTimeout cfg < inp.now - cfg.overallStart then
    .ended .initialTimeout st              -- lines 110-112 (`return None`)
  else if st.voiceStarted = true ∧ cfg.maxRecordingTime < inp.now - st.speechStart then
    .ended .maxDuration st                 -- lines 114-116
  else
    match inp.read with
    | none => .next st                     -- lines 120-122 (sleep 5 ms, continue)
    | some b =>
      if b = [] then .next st              -- `if not pcm_bytes` also catches b""
      else if b.length ≠ cfg.frameLength * 2 then .next st  -- lines 124-127
      else stepFrame E cfg T st inp.now b

/-- The loop run on a finite stream of iteration observations; returns the
state at exit and the exit reason (`none` when the stream is exhausted
with the loop still running). -/
def runTimed (E : List ℤ → ℚ) (cfg : VadConfig) (T : Transcriber σ) :
    SessState σ → List IterInput → SessState σ × Option ExitReason
  | st, [] => (st, none)
  | st, i :: rest =>
    match stepTimed E cfg T st i with
    | .next st' => runTimed E cfg T st' rest
    | .ended r st' => (st', some r)

/-- The (state, observation) pairs actually visited by `runTimed`,
including the exiting iteration. -/
def traceTimed (E : List ℤ → ℚ) (cfg : VadConfig) (T : Transcriber σ) :
    SessState σ → List IterInput → List (SessState σ × IterInput)
  | _, [] => []
  | st, i :: rest =>
    match stepTimed E cfg T st i with
    | .next st' => (st, i) :: traceTimed E cfg T st' rest
    | .ended _ _ => [(st, i)]

/-- The smoothed average that an iteration computes, when it reaches the
energy step: `some` exactly when a non-empty, size-valid frame is read. -/
def smoothedAvgAt (E : List ℤ → ℚ) (cfg : VadConfig)
    (st : SessState σ) (inp : IterInput) : Option ℚ :=
  match inp.read with
  | none => none
  | some b =>
    if b ≠ [] ∧ b.length = cfg.frameLength * 2 then
      some (avgEnergy (pushHistory st.frameHistory (E b)))
    else none

/-! ## Orchestration around the timed loop -/

/-- Observable side effects of a capture call on its collaborators. -/
inductive Action where
  | updateDisplay
  | initInput
  | startListening
  | stopListening
  | sleep : ℚ → Action
  | resetTranscriber
deriving DecidableEq

/-- Effects performed at the moment the loop is left, per exit reason:
`await asyncio.sleep(speech_buffer_time)` at lines 104 and 177,
`self.transcriber.reset()` at line 106.  `initialTimeout` (line 112's bare
`return None`) and `maxDuration` / `recognizerFinal` (bare `break`s,
lines 116 and 182) perform none. -/
def timedExitActions (cfg : VadConfig) : ExitReason → List Action
  | .manualStopWithSpeech => [.sleep cfg.speechBufferTime]
  | .manualStopWithoutSpeech => [.resetTranscriber]
  | .silenceTimeout => [.sleep cfg.speechBufferTime]
  | _ => []

/-- What the orchestrator returns after the loop, per exit reason:
`initialTimeout` returns `None` directly (line 112, skipping
finalization); every `break` path falls through to
`get_final_text()` + the acceptance filter (lines 190-229).  Note the
`manualStopWithoutSpeech` state already carries the reset recognizer. -/
def timedFinalize (T : Transcriber σ) (r : ExitReason) (st : SessState σ) :
    Option (List Char) :=
  match r with
  | .initialTimeout => none
  | _ => acceptTimed (T.getFinalText st.tstate)

/-- A whole timed session body (the `try` block, lines 97-229) on a finite
observation stream: `some (transcript?, exit actions)` when the loop
exits within the stream. -/
def captureTimedSession (E : List ℤ → ℚ) (cfg : VadConfig) (T : Transcriber σ)
    (s0 : SessState σ) (inps : List IterInput) :
    Option (Option (List Char) × List Action) :=
  match runTimed E cfg T s0 inps with
  | (st, some r) => some (timedFinalize T r st, timedExitActions cfg r)
  | (_, none) => none

/-- The checks and guards around a capture body, shared by both modes:
the VOSK-readiness gate (lines 43-46 / 244-247), the stream-start failure
return (lines 56-58 / 254-256) — both BEFORE the `try` — and the
`except Exception` / `finally` shell (lines 231-239 / 313-321).
`bodyRaises` models an unexpected exception inside the `try` block. -/
structure CaptureEnv where
  voskReady : Bool
  streamOk : Bool
  bodyRaises : Bool
deriving DecidableEq

/-- Control-flow shell of `capture_speech_with_unified_vad` (identical in
`capture_speech_push_to_talk`): the overall result and effect trace given
the body's result and the body's exit-time effects. -/
def captureShell (env : CaptureEnv) (bodyResult : Option (List Char))
    (bodyActions : List Action) : Option (List Char) × List Action :=
  if env.voskReady = false then
    (none, [.updateDisplay])                               -- lines 43-46: return before any stream
  else if env.streamOk = false then
    (none, [.updateDisplay, .initInput, .startListening])  -- lines 48-58: stream never started
  else if env.bodyRaises = true then
    -- except Exception → return None; finally → stop_listening
    (none, [.updateDisplay, .initInput, .startListening, .stopListening])
  else
    (bodyResult, [.updateDisplay, .initInput, .startListening] ++ bodyActions ++ [.stopListening])

/-! ## Push-to-talk capture (`capture_speech_push_to_talk`, lines 241-321) -/

/-- Loop state of push-to-talk capture: only the recognizer and the
rate-limit anchor — no VAD state at all. -/
structure PttState (σ : Type) where
  tstate : σ
  lastPrint : Option ℚ
deriving DecidableEq

/-- Line 261: `max_recording_time = 60.0`. -/
def pttMaxRecordingTime : ℚ := 60

inductive PttExit where
  | manualStop
  | maxTime
deriving DecidableEq

inductive PttStepResult (σ : Type) where
  | next : PttState σ → PttStepResult σ
  | ended : PttExit → PttState σ → PttStepResult σ
deriving DecidableEq

/-- One iteration of the push-to-talk loop (lines 264-294): manual-stop
poll, 60 s ceiling, frame read; every non-empty frame goes straight to
`process_frame` — there is no frame-size validation in this mode. -/
def stepPtt (T : Transcriber σ) (startTime : ℚ) (st : PttState σ)
    (inp : IterInput) : PttStepResult σ :=
  if inp.manualStop = true then
    .ended .manualStop st                  -- lines 268-270
  else if pttMaxRecordingTime < inp.now - startTime then
    .ended .maxTime st                     -- lines 273-275
  else
    match inp.read with
    | none => .next st                     -- lines 279-281
    | some b =>
      if b = [] then .next st
      else
        let pr := T.processFrame st.tstate b
        let lp :=
          match pr.2 with
          | none => st.lastPrint           -- lines 293-294: error caught, loop continues
          | some e =>
            if e.text ≠ [] ∧ 0 < (pyStrip e.text).length then
              match st.lastPrint with
              | none => some inp.now
              | some t => if (1 : ℚ)/2 < inp.now - t then some inp.now else st.lastPrint
            else st.lastPrint
        .next { tstate := pr.1, lastPrint := lp }

/-- The push-to-talk loop on a finite observation stream. -/
def runPtt (T : Transcriber σ) (startTime : ℚ) :
    PttState σ → List IterInput → PttState σ × Option PttExit
  | st, [] => (st, none)
  | st, i :: rest =>
    match stepPtt T startTime st i with
    | .next st' => runPtt T startTime st' rest
    | .ended r st' => (st', some r)

/-- After the push-to-talk loop: `get_final_text()` through the light
filter (lines 296-311). -/
def pttFinalize (T : Transcriber σ) (st : PttState σ) : Option (List Char) :=
  acceptPushToTalk (T.getFinalText st.tstate)

/-! ## Concrete instances used by witnesses and counterexamples -/

/-- A simple recognizer adapter instance: the state records the frames
processed since the last reset; the final text is "ok go" once at least
one frame has been processed, empty otherwise.  It satisfies the §4.4
contract (`reset` discards all state, `get_final_text` flushes). -/
def T0 : Transcriber (List (List ℤ)) :=
  { init := []
    processFrame := fun s b => (s ++ [b], some { isFinal := false, confidence := none, text := [] })
    getFinalText := fun s => if s = [] then [] else "ok go".data }

/-- A constant-1 energy estimator.  It agrees with the source's RMS on the
frames used below: a frame whose int16 samples all equal -32768
(bytes `00 80` little-endian) normalizes to -1.0 and has RMS exactly 1. -/
def E0 : List ℤ → ℚ := fun _ => 1

/-- The byte frame `00 80 00 80`: two int16 samples of value -32768. -/
def loudFrame : List ℤ := [0, 128, 0, 128]

/-- The documented fallback configuration (spec §6): thresholds from a
calibration, `silence_duration` 3.0 s, `min_speech_duration` 0.4 s,
`speech_buffer_time` 1.0 s, `max_recording_time` 45.0 s, at 16 kHz with
512-sample frames, initial (non-follow-up) listening started at 0. -/
def cfgDefault : VadConfig :=
  { energyThreshold := 1/10
    continuedThreshold := 6/100
    silenceDuration := 3
    minSpeechDuration := 2/5
    speechBufferTime := 1
    maxRecordingTime := 45
    sampleRate := 16000
    frameLength := 512
    isFollowUp := false
    overallStart := 0 }

/-- A degenerate but expressible configuration: `silence_duration = 0`
(so `silence_frames_needed = 0`), `min_speech_duration = 0`, 2-sample
frames. -/
def cfgZeroSilence : VadConfig :=
  { cfgDefault with silenceDuration := 0, minSpeechDuration := 0, frameLength := 2 }

/-- A session state in `VoiceActive` with one frame already processed. -/
def stVoice : SessState (List (List ℤ)) :=
  { voiceStarted := true, speechStart := 0, silenceCount := 0,
    frameHistory := [1], tstate := [loudFrame], lastPrint := none }

/-- Manual stop observed at elapsed speech duration exactly equal to
`min_speech_duration` (0.4 s). -/
def inpStopAtMin : IterInput := { now := 2/5, manualStop := true, read := none }

/-- Manual stop observed well after `min_speech_duration`. -/
def inpStopLate : IterInput := { now := 1, manualStop := true, read := none }

/-- A frameless iteration at 9 s, past the 8 s initial timeout. -/
def inpTimeout : IterInput := { now := 9, manualStop := false, read := none }

/-- Two loud-frame iterations shortly after session start. -/
def inpLoud1 : IterInput := { now := 1/10, manualStop := false, read := some loudFrame }

def inpLoud2 : IterInput := { now := 2/10, manualStop := false, read := some loudFrame }

/-- The capture environment in which the VOSK readiness gate fails. -/
def envNoVosk : CaptureEnv := { voskReady := false, streamOk := true, bodyRaises := false }

/-- The capture environment of a normally running session. -/
def envOk : CaptureEnv := { voskReady := true, streamOk := true, bodyRaises := false }

/-- A malformed 3-byte frame (a 512-sample config expects 1024 bytes). -/
def badFrame : List ℤ := [0, 128, 0]

/-- An iteration that reads the malformed frame mid-session. -/
def inpBad : IterInput := { now := 1/5, manualStop := false, read := some badFrame }

/-- A fresh push-to-talk loop state. -/
def stPtt : PttState (List (List ℤ)) := { tstate := [], lastPrint := none }

/-- The state carried by a push-to-talk step result. -/
def PttStepResult.state : PttStepResult σ → PttState σ
  | .next st => st
  | .ended _ st => st

/-- The state after the first loud frame under `cfgZeroSilence`: voice
has started at 0.1 s. -/
def stMid : SessState (List (List ℤ)) :=
  { voiceStarted := true, speechStart := 1/10, silenceCount := 0,
    frameHistory := [1], tstate := [loudFrame], lastPrint := none }

/-- The state at the degenerate silence-timeout exit after the second
loud frame under `cfgZeroSilence`. -/
def stEnd2 : SessState (List (List ℤ)) :=
  { voiceStarted := true, speechStart := 1/10, silenceCount := 0,
    frameHistory := [1, 1], tstate := [loudFrame, loudFrame], lastPrint := none }

/-- Holds when an iteration's smoothed average, if one was computed,
exceeds the threshold (used to express "every smoothed average stays
above `continued_threshold`"). -/
def aboveThr (θ : ℚ) : Option ℚ → Prop
  | none => True
  | some a => θ < a

/-- Holds when an iteration's smoothed average, if one was computed, is at
most the threshold (used to express "the smoothed energy never exceeds
`energy_threshold`"). -/
def atMostThr (θ : ℚ) : Option ℚ → Prop
  | none => True
  | some a => a ≤ θ

/-! ## Lemmas about the string primitives -/

theorem trimRight_eq_rdropWhile (l : List Char) : trimRight l = l.rdropWhile isWs := rfl

theorem pyStrip_nil : pyStrip [] = [] := rfl

theorem trimLeft_rdropWhile_of_fixed {m : List Char} (h : trimLeft m = m) :
    trimLeft (m.rdropWhile isWs) = m.rdropWhile isWs := by
  unfold trimLeft at h ⊢
  rw [List.dropWhile_eq_self_iff] at h ⊢
  intro hl
  have hpre := List.rdropWhile_prefix isWs m
  have h3 : 0 < m.length := lt_of_lt_of_le hl hpre.length_le
  have hget : (m.rdropWhile isWs).get ⟨0, hl⟩ = m.get ⟨0, h3⟩ := by
    simp only [List.get_eq_getElem]
    exact List.IsPrefix.getElem hpre hl
  rw [hget]
  exact h h3

theorem trimLeft_idem (l : List Char) : trimLeft (trimLeft l) = trimLeft l :=
  List.dropWhile_idempotent isWs l

theorem pyStrip_idem (l : List Char) : pyStrip (pyStrip l) = pyStrip l := by
  unfold pyStrip
  rw [trimRight_eq_rdropWhile, trimRight_eq_rdropWhile]
  rw [trimLeft_rdropWhile_of_fixed (trimLeft_idem l)]
  exact List.rdropWhile_idempotent isWs (trimLeft l)

/-! ## Lemmas about the acceptance filters -/

theorem acceptTimed_none_iff (raw : List Char) :
    acceptTimed raw = none ↔
      pyStrip raw = [] ∨ pyStrip (pyLower (pyStrip raw)) = "the".data ∨
      (pyStrip raw).length < 2 ∨ (pyWords (pyStrip raw)).length = 0 ∨
      ((pyWords (pyStrip raw)).length = 1 ∧ (pyStrip raw).length < 2) := by
  dsimp only [acceptTimed]
  split_ifs with h1 h2 h3 h4 h5 h6
  · subst h1
    exact iff_of_true rfl (Or.inl pyStrip_nil)
  · exact iff_of_true rfl (Or.inl h2)
  · exact iff_of_true rfl (Or.inr (Or.inl h3))
  · rcases h4 with h | h
    · exact iff_of_true rfl (Or.inr (Or.inr (Or.inr (Or.inl h))))
    · exact iff_of_true rfl (Or.inr (Or.inr (Or.inl h)))
  · have h : (pyWords (pyStrip raw)).length = 0 := by omega
    exact iff_of_true rfl (Or.inr (Or.inr (Or.inr (Or.inl h))))
  · exact iff_of_true rfl (Or.inr (Or.inr (Or.inr (Or.inr h6))))
  · simp only [reduceCtorEq, false_iff]
    push_neg at h4
    obtain ⟨h41, h42⟩ := h4
    rintro (h | h | h | h | ⟨hw, hl⟩)
    · exact h2 h
    · exact h3 h
    · omega
    · exact h41 h
    · omega

theorem acceptTimed_some_iff (raw t : List Char) :
    acceptTimed raw = some t ↔
      t = pyStrip raw ∧ t ≠ [] ∧ pyStrip (pyLower t) ≠ "the".data ∧
      ¬((pyWords t).length = 0 ∨ t.length < 2) ∧
      ¬((pyWords t).length = 1 ∧ t.length < 2) := by
  dsimp only [acceptTimed]
  split_ifs with h1 h2 h3 h4 h5 h6
  · subst h1
    simp only [reduceCtorEq, false_iff, pyStrip_nil]
    rintro ⟨rfl, hne, -⟩
    exact hne rfl
  · simp only [reduceCtorEq, false_iff]
    rintro ⟨rfl, hne, -⟩
    exact hne h2
  · simp only [reduceCtorEq, false_iff]
    rintro ⟨rfl, -, hthe, -⟩
    exact hthe h3
  · simp only [reduceCtorEq, false_iff]
    rintro ⟨rfl, -, -, hlen, -⟩
    exact hlen h4
  · simp only [reduceCtorEq, false_iff]
    rintro ⟨rfl, -, -, hlen, -⟩
    push_neg at hlen
    omega
  · simp only [reduceCtorEq, false_iff]
    rintro ⟨rfl, -, -, -, hsw⟩
    exact hsw h6
  · simp only [Option.some_inj]
    constructor
    · rintro rfl
      exact ⟨rfl, h2, h3, h4, h6⟩
    · rintro ⟨rfl, -⟩
      rfl

theorem acceptTimed_idem {raw t : List Char} (h : acceptTimed raw = some t) :
    acceptTimed t = some t := by
  rw [acceptTimed_some_iff] at h ⊢
  obtain ⟨h0, h2, h3, h4, h6⟩ := h
  refine ⟨?_, h2, h3, h4, h6⟩
  rw [h0, pyStrip_idem]

/-! ## Claim C3 -/

/-- Claim C3: the timed-capture acceptance filter returns `none` exactly when
the trimmed text is empty, or its trimmed lowercase form equals "the", or it
has fewer than 2 characters, or it has zero words, or it is a single word of
fewer than 2 characters; otherwise it returns the trimmed text.  In
particular accept "the" = none, accept "" = none, accept "a" = none,
accept "ok go" = some "ok go", and the filter is idempotent on accepted
strings. -/
theorem claim_C3_acceptance_filter :
    (∀ raw : List Char,
      (acceptTimed raw = none ↔
        pyStrip raw = [] ∨ pyStrip (pyLower (pyStrip raw)) = "the".data ∨
        (pyStrip raw).length < 2 ∨ (pyWords (pyStrip raw)).length = 0 ∨
        ((pyWords (pyStrip raw)).length = 1 ∧ (pyStrip raw).length < 2))) ∧
    (∀ raw t, acceptTimed raw = some t → t = pyStrip raw) ∧
    acceptTimed "the".data = none ∧
    acceptTimed "".data = none ∧
    acceptTimed "a".data = none ∧
    acceptTimed "ok go".data = some "ok go".data ∧
    (∀ raw t, acceptTimed raw = some t → acceptTimed t = some t) := by
  refine ⟨acceptTimed_none_iff, fun raw t ht => ((acceptTimed_some_iff raw t).mp ht).1,
    by decide, by decide, by decide, by decide, fun raw t h => acceptTimed_idem h⟩

/-- Witness for C3's hypothesis-bearing parts at concrete inputs: the
some-case shape and idempotence at " ok go ". -/
theorem claim_C3_acceptance_filter_witness :
    "ok go".data = pyStrip " ok go ".data ∧ acceptTimed "ok go".data = some "ok go".data :=
  ⟨claim_C3_acceptance_filter.2.1 " ok go ".data "ok go".data (by decide),
   claim_C3_acceptance_filter.2.2.2.2.2.2 " ok go ".data "ok go".data (by decide)⟩

/-! ## Claim C4 -/

/-- Claim C4: in push-to-talk capture the final text is subjected only to
trimming and the literal "the" rejection (plus rejection of an empty
result): every text that trims non-empty and whose trimmed lowercase form
is not "the" is returned trimmed — even a single character, which timed
mode would reject ("a" is accepted here, rejected there).  The
push-to-talk result is exactly `acceptPushToTalk` of `get_final_text`. -/
theorem claim_C4_ptt_filter :
    (∀ raw : List Char, pyStrip raw ≠ [] →
      pyStrip (pyLower (pyStrip raw)) ≠ "the".data →
      acceptPushToTalk raw = some (pyStrip raw)) ∧
    acceptPushToTalk "a".data = some "a".data ∧
    acceptTimed "a".data = none ∧
    (∀ (σ : Type) (T : Transcriber σ) (st : PttState σ),
      pttFinalize T st = acceptPushToTalk (T.getFinalText st.tstate)) := by
  refine ⟨fun raw h1 h2 => ?_, by decide, by decide, fun σ T st => rfl⟩
  have hraw : raw ≠ [] := by
    intro h
    rw [h] at h1
    exact h1 pyStrip_nil
  dsimp only [acceptPushToTalk]
  rw [if_neg hraw, if_neg h2, if_neg h1]

/-- Witness for C4 at the single-character input "a". -/
theorem claim_C4_ptt_filter_witness :
    pyStrip "a".data ≠ [] ∧ acceptPushToTalk "a".data = some (pyStrip "a".data) :=
  ⟨by decide, claim_C4_ptt_filter.1 "a".data (by decide) (by decide)⟩

/-! ## Claim C7 -/

/-- Counterexample to claim C7: with the documented defaults
(`silence_duration` = 3.0 s, 16000 Hz, 512-sample frames) the exact value
is 93.75; the code's `int()` truncation yields 93 while rounding to the
nearest integer yields 94. -/
theorem claim_C7_counterexample :
    silenceFramesNeeded cfgDefault = 93 ∧
    silenceFramesNeededRounded cfgDefault = 94 ∧
    silenceFramesNeeded cfgDefault ≠ silenceFramesNeededRounded cfgDefault := by
  refine ⟨?_, ?_, ?_⟩
  · norm_num [silenceFramesNeeded, cfgDefault, framesPerSecond, pyInt]
  · norm_num [silenceFramesNeededRounded, cfgDefault, framesPerSecond, round_eq]
  · norm_num [silenceFramesNeeded, silenceFramesNeededRounded, cfgDefault,
      framesPerSecond, pyInt, round_eq]

/-- Claim C7 amended: `silence_frames_needed` is the floor (truncation
toward zero, equal to the floor on the non-negative values that arise) of
`silence_duration × sample_rate / frame_length`, not the nearest
integer. -/
theorem claim_C7_amended (cfg : VadConfig) (h1 : 0 ≤ cfg.silenceDuration)
    (h2 : 0 ≤ cfg.sampleRate) :
    silenceFramesNeeded cfg = ⌊cfg.silenceDuration * framesPerSecond cfg⌋ := by
  unfold silenceFramesNeeded pyInt
  rw [if_pos]
  refine mul_nonneg h1 ?_
  unfold framesPerSecond
  exact div_nonneg h2 (Nat.cast_nonneg _)

/-- Witness for C7's amended statement at the default configuration. -/
theorem claim_C7_amended_witness :
    (0 : ℚ) ≤ cfgDefault.silenceDuration ∧ (0 : ℚ) ≤ cfgDefault.sampleRate ∧
    silenceFramesNeeded cfgDefault = ⌊cfgDefault.silenceDuration * framesPerSecond cfgDefault⌋ :=
  ⟨by norm_num [cfgDefault], by norm_num [cfgDefault],
   claim_C7_amended cfgDefault (by norm_num [cfgDefault]) (by norm_num [cfgDefault])⟩

/-! ## Claim C1 -/

/-- Counterexample to claim C1: a manual stop observed at elapsed speech
duration exactly equal to `min_speech_duration` (0.4 s) — which the claim's
"≥" places in the with-speech case — is treated by the code's strict `>`
as `ManualStopWithoutSpeech`: the recognizer state is discarded and the
session returns `None`, even though the recognizer held a transcript the
filter would have accepted. -/
theorem claim_C1_counterexample :
    stVoice.voiceStarted = true ∧
    inpStopAtMin.now - stVoice.speechStart = cfgDefault.minSpeechDuration ∧
    stepTimed E0 cfgDefault T0 stVoice inpStopAtMin =
      .ended .manualStopWithoutSpeech { stVoice with tstate := T0.init } ∧
    captureTimedSession E0 cfgDefault T0 stVoice [inpStopAtMin] =
      some (none, [Action.resetTranscriber]) ∧
    acceptTimed (T0.getFinalText stVoice.tstate) = some "ok go".data := by
  refine ⟨rfl, by norm_num [inpStopAtMin, stVoice, cfgDefault], ?_, ?_, by decide⟩
  · norm_num [stepTimed, cfgDefault, stVoice, inpStopAtMin, T0]
  · norm_num [captureTimedSession, runTimed, stepTimed, cfgDefault, stVoice, inpStopAtMin, T0,
      timedFinalize, timedExitActions, acceptTimed, pyStrip, trimLeft, trimRight, initialTimeout]

/-- Claim C1 amended: on a manual stop, if speech has started and the
elapsed time since `speech_start` is STRICTLY GREATER than
`min_speech_duration`, the session ends as `ManualStopWithSpeech` (the
orchestrator sleeps `speech_buffer_time`, then finalizes through the
acceptance filter); otherwise — including elapsed time exactly equal —
it ends as `ManualStopWithoutSpeech`, the recognizer state is reset and
the session yields `None`.  The manual-stop check precedes every other
transition of the iteration. -/
theorem claim_C1_manual_stop {σ : Type} (E : List ℤ → ℚ) (cfg : VadConfig)
    (T : Transcriber σ) (st : SessState σ) (inp : IterInput)
    (hm : inp.manualStop = true) :
    (st.voiceStarted = true ∧ cfg.minSpeechDuration < inp.now - st.speechStart →
      stepTimed E cfg T st inp = .ended .manualStopWithSpeech st ∧
      timedExitActions cfg .manualStopWithSpeech = [Action.sleep cfg.speechBufferTime] ∧
      timedFinalize T .manualStopWithSpeech st = acceptTimed (T.getFinalText st.tstate)) ∧
    (¬(st.voiceStarted = true ∧ cfg.minSpeechDuration < inp.now - st.speechStart) →
      stepTimed E cfg T st inp = .ended .manualStopWithoutSpeech { st with tstate := T.init } ∧
      timedExitActions cfg .manualStopWithoutSpeech = [Action.resetTranscriber] ∧
      (T.getFinalText T.init = [] →
        timedFinalize T .manualStopWithoutSpeech { st with tstate := T.init } = none)) ∧
    (∃ st', stepTimed E cfg T st inp = .ended .manualStopWithSpeech st' ∨
            stepTimed E cfg T st inp = .ended .manualStopWithoutSpeech st') := by
  refine ⟨fun h => ⟨?_, rfl, rfl⟩, fun h => ⟨?_, rfl, fun hg => ?_⟩, ?_⟩
  · unfold stepTimed
    rw [if_pos hm, if_pos h]
  · unfold stepTimed
    rw [if_pos hm, if_neg h]
  · have hfin : timedFinalize T .manualStopWithoutSpeech { st with tstate := T.init } =
        acceptTimed (T.getFinalText T.init) := rfl
    rw [hfin, hg]
    rfl
  · by_cases h : st.voiceStarted = true ∧ cfg.minSpeechDuration < inp.now - st.speechStart
    · exact ⟨st, Or.inl (by unfold stepTimed; rw [if_pos hm, if_pos h])⟩
    · exact ⟨{ st with tstate := T.init },
        Or.inr (by unfold stepTimed; rw [if_pos hm, if_neg h])⟩

/-- Witness for C1's amended statement: both manual-stop outcomes at
concrete inputs. -/
theorem claim_C1_manual_stop_witness :
    stepTimed E0 cfgDefault T0 stVoice inpStopLate = .ended .manualStopWithSpeech stVoice ∧
    stepTimed E0 cfgDefault T0 (initState T0) inpStopLate =
      .ended .manualStopWithoutSpeech { initState T0 with tstate := T0.init } := by
  constructor
  · exact ((claim_C1_manual_stop E0 cfgDefault T0 stVoice inpStopLate rfl).1
      (by norm_num [stVoice, cfgDefault, inpStopLate])).1
  · exact ((claim_C1_manual_stop E0 cfgDefault T0 (initState T0) inpStopLate rfl).2.1
      (by norm_num [initState, T0, cfgDefault, inpStopLate])).1

/-! ## Claim C8 -/

/-- Claim C8: in timed capture, a frame whose byte length is not
`frame_length × 2` is discarded and the iteration leaves the session state
completely unchanged — same `FrameHistory`, `silence_frames_count`,
`voice_started`, time anchors and recognizer state (the result state is
literally the input state, and the loop continues). -/
theorem claim_C8_invalid_frame {σ : Type} (E : List ℤ → ℚ) (cfg : VadConfig)
    (T : Transcriber σ) (st : SessState σ) (inp : IterInput) (b : List ℤ)
    (hm : inp.manualStop = false)
    (h1 : ¬(st.voiceStarted = false ∧ initialTimeout cfg < inp.now - cfg.overallStart))
    (h2 : ¬(st.voiceStarted = true ∧ cfg.maxRecordingTime < inp.now - st.speechStart))
    (hr : inp.read = some b) (hb : b ≠ [])
    (hlen : b.length ≠ cfg.frameLength * 2) :
    stepTimed E cfg T st inp = .next st := by
  unfold stepTimed
  rw [hm, if_neg (by simp), if_neg h1, if_neg h2, hr]
  dsimp only
  rw [if_neg hb, if_pos hlen]

/-- Witness for C8 at a concrete malformed 3-byte frame in a 512-sample
configuration. -/
theorem claim_C8_invalid_frame_witness :
    stepTimed E0 cfgDefault T0 stVoice inpBad = .next stVoice :=
  claim_C8_invalid_frame E0 cfgDefault T0 stVoice inpBad badFrame rfl
    (by norm_num [stVoice])
    (by norm_num [stVoice, cfgDefault, inpBad])
    rfl (by decide) (by decide)

/-! ## Claim C9 -/

/-- Claim C9: in push-to-talk capture every non-empty frame is forwarded
to the recognizer's `process_frame` regardless of its byte length — the
frame-size validation of timed capture is absent, so the same malformed
frame that timed capture discards does advance the recognizer here. -/
theorem claim_C9_ptt_forwards {σ : Type} (T : Transcriber σ) (startTime : ℚ)
    (st : PttState σ) (inp : IterInput) (b : List ℤ)
    (hm : inp.manualStop = false)
    (ht : ¬(pttMaxRecordingTime < inp.now - startTime))
    (hr : inp.read = some b) (hb : b ≠ []) :
    ((stepPtt T startTime st inp).state).tstate = (T.processFrame st.tstate b).1 ∧
    (∀ (E : List ℤ → ℚ) (cfg : VadConfig) (st' : SessState σ),
      st'.tstate = st.tstate →
      ¬(st'.voiceStarted = false ∧ initialTimeout cfg < inp.now - cfg.overallStart) →
      ¬(st'.voiceStarted = true ∧ cfg.maxRecordingTime < inp.now - st'.speechStart) →
      b.length ≠ cfg.frameLength * 2 →
      ((stepTimed E cfg T st' inp).state).tstate = st.tstate) := by
  constructor
  · unfold stepPtt
    rw [hm, if_neg (by simp), if_neg ht, hr]
    dsimp only
    rw [if_neg hb]
    rfl
  · intro E cfg st' hts h1 h2 hlen
    unfold stepTimed
    rw [hm, if_neg (by simp), if_neg h1, if_neg h2, hr]
    dsimp only
    rw [if_neg hb, if_pos hlen]
    exact hts

/-- Witness for C9: the malformed 3-byte frame advances the push-to-talk
recognizer state (by one recorded frame) while timed capture leaves the
recognizer untouched on the same input. -/
theorem claim_C9_ptt_forwards_witness :
    ((stepPtt T0 0 stPtt inpBad).state).tstate = (T0.processFrame stPtt.tstate badFrame).1 := by
  exact (claim_C9_ptt_forwards T0 0 stPtt inpBad badFrame rfl
    (by norm_num [pttMaxRecordingTime, inpBad]) rfl (by decide)).1

/-! ## Claim C10 -/

/-- Claim C10: when timed capture ends because elapsed speech duration
exceeds `max_recording_time`, the loop exits as `MaxDuration` with the
state untouched, the orchestrator performs no `speech_buffer_time` sleep
and no recognizer reset, and the final text goes through the full
acceptance filter — so a max-duration stop can still yield an accepted
transcript (witnessed concretely). -/
theorem claim_C10_max_duration {σ : Type} (E : List ℤ → ℚ) (cfg : VadConfig)
    (T : Transcriber σ) (st : SessState σ) (inp : IterInput)
    (hm : inp.manualStop = false) (hv : st.voiceStarted = true)
    (hd : cfg.maxRecordingTime < inp.now - st.speechStart) :
    stepTimed E cfg T st inp = .ended .maxDuration st ∧
    timedExitActions cfg .maxDuration = [] ∧
    (∀ q, Action.sleep q ∉ timedExitActions cfg .maxDuration) ∧
    Action.resetTranscriber ∉ timedExitActions cfg .maxDuration ∧
    timedFinalize T .maxDuration st = acceptTimed (T.getFinalText st.tstate) ∧
    timedFinalize T0 .maxDuration stVoice = some "ok go".data := by
  refine ⟨?_, rfl, by simp [timedExitActions], by simp [timedExitActions], rfl, by decide⟩
  unfold stepTimed
  rw [hm, if_neg (by simp), if_neg (by simp [hv]), if_pos ⟨hv, hd⟩]

/-- Witness for C10 at a concrete over-length session. -/
theorem claim_C10_max_duration_witness :
    stepTimed E0 cfgDefault T0 stVoice { now := 50, manualStop := false, read := none } =
      .ended .maxDuration stVoice := by
  exact (claim_C10_max_duration E0 cfgDefault T0 stVoice _ rfl rfl
    (by norm_num [stVoice, cfgDefault])).1

/-! ## Claim C6 -/

/-- Counterexample to claim C6: when the VOSK readiness gate fails, the
capture call returns `None` before the audio stream is started, and
`stop_listening` is not invoked on that exit path — the `finally` block
guards only the code after `start_listening`.  This refutes "stop_listening
is invoked on every exit path, including early returns". -/
theorem claim_C6_counterexample :
    captureShell envNoVosk (some "ok go".data) [] = (none, [Action.updateDisplay]) ∧
    Action.stopListening ∉ (captureShell envNoVosk (some "ok go".data) []).2 := by
  constructor
  · rfl
  · intro hmem
    rw [show (captureShell envNoVosk (some "ok go".data) []).2 = [Action.updateDisplay] from rfl] at hmem
    simp at hmem

/-- Claim C6 amended: no exception escapes the capture body — an
unexpected exception inside the `try` block normalizes the result to
`None` — the overall result is always the body's optional transcript or
`None`, and `stop_listening` runs on every exit path reached after the
audio stream has started (normal loop exits and exceptional exits alike);
the two early returns before the stream starts (readiness gate, stream
failure) do not invoke it. -/
theorem claim_C6_cleanup (env : CaptureEnv) (r : Option (List Char)) (a : List Action) :
    ((captureShell env r a).1 = r ∨ (captureShell env r a).1 = none) ∧
    (env.bodyRaises = true → (captureShell env r a).1 = none) ∧
    (env.voskReady = true → env.streamOk = true →
      Action.stopListening ∈ (captureShell env r a).2) := by
  rcases env with ⟨v, s, e⟩
  unfold captureShell
  cases v <;> cases s <;> cases e <;> simp

/-- Witness for C6's amended statement: a normally terminating session
stops the stream, and a session whose body raises returns `None` and
still stops the stream. -/
theorem claim_C6_cleanup_witness :
    Action.stopListening ∈ (captureShell envOk none []).2 ∧
    (captureShell { envOk with bodyRaises := true } none []).1 = none := by
  constructor
  · exact (claim_C6_cleanup envOk none []).2.2 rfl rfl
  · exact (claim_C6_cleanup { envOk with bodyRaises := true } none []).2.1 rfl

/-! ## Claim C2: step and run lemmas -/

theorem stepTimed_voice_mono {σ : Type} (E : List ℤ → ℚ) (cfg : VadConfig)
    (T : Transcriber σ) (st : SessState σ) (inp : IterInput)
    (h : st.voiceStarted = true) :
    ((stepTimed E cfg T st inp).state).voiceStarted = true := by
  rcases inp with ⟨now, ms, rd⟩
  unfold stepTimed
  split_ifs with h1 h2 h3 h4
  · exact h
  · exact h
  · exact h
  · exact h
  · rcases rd with _ | b
    · exact h
    · dsimp only
      split_ifs with hb hlen
      · exact h
      · exact h
      · unfold stepFrame
        rw [if_neg (by simp [h])]
        dsimp only
        split_ifs <;> exact h

theorem stepFrame_silence_count {σ : Type} (E : List ℤ → ℚ) (cfg : VadConfig)
    (T : Transcriber σ) (st : SessState σ) (now : ℚ) (b : List ℤ)
    (h : st.voiceStarted = true) :
    ((stepFrame E cfg T st now b).state).silenceCount =
      (if cfg.continuedThreshold < avgEnergy (pushHistory st.frameHistory (E b)) then 0
       else st.silenceCount + 1) := by
  unfold stepFrame
  rw [if_neg (by simp [h])]
  dsimp only
  split_ifs <;> rfl

theorem stepFrame_not_silence {σ : Type} (E : List ℤ → ℚ) (cfg : VadConfig)
    (T : Transcriber σ) (st : SessState σ) (now : ℚ) (b : List ℤ)
    (hneed : 1 ≤ silenceFramesNeeded cfg)
    (havg : cfg.continuedThreshold < avgEnergy (pushHistory st.frameHistory (E b))) :
    ∀ st', stepFrame E cfg T st now b ≠ .ended .silenceTimeout st' := by
  intro st' hstep
  unfold stepFrame at hstep
  by_cases hv : st.voiceStarted = false
  · rw [if_pos hv] at hstep
    split_ifs at hstep
  · rw [if_neg hv] at hstep
    dsimp only at hstep
    rw [if_pos havg] at hstep
    have hcond : ¬(silenceFramesNeeded cfg ≤ ((0 : ℕ) : ℤ) ∧
        cfg.minSpeechDuration ≤ now - st.speechStart) := by
      intro hcontra
      have := hcontra.1
      omega
    rw [if_neg hcond] at hstep
    split_ifs at hstep with hf
    exact ExitReason.noConfusion (StepResult.ended.inj hstep).1

theorem stepTimed_not_silence {σ : Type} (E : List ℤ → ℚ) (cfg : VadConfig)
    (T : Transcriber σ) (st : SessState σ) (inp : IterInput)
    (hneed : 1 ≤ silenceFramesNeeded cfg)
    (havg : aboveThr cfg.continuedThreshold (smoothedAvgAt E cfg st inp)) :
    ∀ st', stepTimed E cfg T st inp ≠ .ended .silenceTimeout st' := by
  intro st' hstep
  rcases inp with ⟨now, ms, rd⟩
  unfold stepTimed at hstep
  split_ifs at hstep with h1 h2 h3 h4
  · exact ExitReason.noConfusion (StepResult.ended.inj hstep).1
  · exact ExitReason.noConfusion (StepResult.ended.inj hstep).1
  · exact ExitReason.noConfusion (StepResult.ended.inj hstep).1
  · exact ExitReason.noConfusion (StepResult.ended.inj hstep).1
  · rcases rd with _ | b
    · exact StepResult.noConfusion hstep
    · dsimp only at hstep
      split_ifs at hstep with hb hlen
      have hsome : smoothedAvgAt E cfg st ⟨now, ms, some b⟩ =
          some (avgEnergy (pushHistory st.frameHistory (E b))) := by
        unfold smoothedAvgAt
        dsimp only
        rw [if_pos ⟨hb, not_not.mp hlen⟩]
      rw [hsome] at havg
      exact stepFrame_not_silence E cfg T st now b hneed havg st' hstep

theorem runTimed_not_silence {σ : Type} (E : List ℤ → ℚ) (cfg : VadConfig)
    (T : Transcriber σ) (hneed : 1 ≤ silenceFramesNeeded cfg) :
    ∀ (inps : List IterInput) (st : SessState σ),
      (∀ p ∈ traceTimed E cfg T st inps,
        aboveThr cfg.continuedThreshold (smoothedAvgAt E cfg p.1 p.2)) →
      (runTimed E cfg T st inps).2 ≠ some .silenceTimeout := by
  intro inps
  induction inps with
  | nil =>
    intro st hyp hcontra
    simp [runTimed] at hcontra
  | cons i rest ih =>
    intro st hyp
    have hhead : aboveThr cfg.continuedThreshold (smoothedAvgAt E cfg st i) := by
      apply hyp (st, i)
      unfold traceTimed
      cases hs : stepTimed E cfg T st i <;> simp
    unfold runTimed
    cases hs : stepTimed E cfg T st i with
    | next st' =>
      dsimp only
      apply ih st'
      intro p hp
      apply hyp p
      unfold traceTimed
      rw [hs]
      exact List.mem_cons_of_mem _ hp
    | ended r st'' =>
      dsimp only
      intro hcontra
      rw [Option.some_inj] at hcontra
      subst hcontra
      exact stepTimed_not_silence E cfg T st i hneed hhead st'' hs

/-! ## Claim C2: statement -/

/-- Counterexample to claim C2's last part: under the expressible
configuration `silence_duration = 0` (so `silence_frames_needed = 0`) and
`min_speech_duration = 0`, a run whose every smoothed average is 1 —
strictly above `continued_threshold` — still exits with
`Ended(SilenceTimeout)`, because `silence_frames_count = 0` already
satisfies `silence_frames_count ≥ silence_frames_needed`. -/
theorem claim_C2_counterexample :
    (runTimed E0 cfgZeroSilence T0 (initState T0) [inpLoud1, inpLoud2]).2 =
      some .silenceTimeout ∧
    ((traceTimed E0 cfgZeroSilence T0 (initState T0) [inpLoud1, inpLoud2]).map
      (fun p => smoothedAvgAt E0 cfgZeroSilence p.1 p.2)) = [some 1, some 1] ∧
    cfgZeroSilence.continuedThreshold < 1 ∧
    silenceFramesNeeded cfgZeroSilence = 0 := by
  have h1 : stepTimed E0 cfgZeroSilence T0 (initState T0) inpLoud1 = .next stMid := by
    norm_num [stepTimed, stepFrame, E0, cfgZeroSilence, cfgDefault, T0, initState, stMid,
      inpLoud1, loudFrame, pushHistory, avgEnergy, frameHistoryLength, initialTimeout,
      hintText, updatePrint, List.cons_ne_nil]
  have h2 : stepTimed E0 cfgZeroSilence T0 stMid inpLoud2 = .ended .silenceTimeout stEnd2 := by
    norm_num [stepTimed, stepFrame, E0, cfgZeroSilence, cfgDefault, T0, stMid, stEnd2,
      inpLoud2, loudFrame, pushHistory, avgEnergy, frameHistoryLength, initialTimeout,
      silenceFramesNeeded, framesPerSecond, pyInt, hintText, updatePrint, List.cons_ne_nil]
  refine ⟨?_, ?_, by norm_num [cfgZeroSilence, cfgDefault], ?_⟩
  · simp [runTimed, h1, h2]
  · simp only [traceTimed, h1, h2, List.map]
    have ha1 : smoothedAvgAt E0 cfgZeroSilence (initState T0) inpLoud1 = some 1 := by
      norm_num [smoothedAvgAt, E0, cfgZeroSilence, cfgDefault, T0, initState, inpLoud1,
        loudFrame, pushHistory, avgEnergy, frameHistoryLength, List.cons_ne_nil]
    have ha2 : smoothedAvgAt E0 cfgZeroSilence stMid inpLoud2 = some 1 := by
      norm_num [smoothedAvgAt, E0, cfgZeroSilence, cfgDefault, stMid, inpLoud2,
        loudFrame, pushHistory, avgEnergy, frameHistoryLength, List.cons_ne_nil]
    rw [ha1, ha2]
  · norm_num [silenceFramesNeeded, framesPerSecond, pyInt, cfgZeroSilence, cfgDefault]

/-- Claim C2 amended: once `VoiceActive` the machine never returns to
`WaitingForVoice`; in `VoiceActive` the silence counter is reset to 0
when the smoothed average exceeds `continued_threshold` and incremented
otherwise; and — provided `silence_frames_needed ≥ 1` — a run all of
whose smoothed averages exceed `continued_threshold` never exits with
`Ended(SilenceTimeout)`, even if they stay below `energy_threshold`. -/
theorem claim_C2_hysteresis {σ : Type} (E : List ℤ → ℚ) (cfg : VadConfig)
    (T : Transcriber σ) :
    (∀ (st : SessState σ) (inp : IterInput), st.voiceStarted = true →
      ((stepTimed E cfg T st inp).state).voiceStarted = true) ∧
    (∀ (st : SessState σ) (now : ℚ) (b : List ℤ), st.voiceStarted = true →
      ((stepFrame E cfg T st now b).state).silenceCount =
        (if cfg.continuedThreshold < avgEnergy (pushHistory st.frameHistory (E b)) then 0
         else st.silenceCount + 1)) ∧
    (1 ≤ silenceFramesNeeded cfg →
      ∀ (inps : List IterInput) (st : SessState σ),
        (∀ p ∈ traceTimed E cfg T st inps,
          aboveThr cfg.continuedThreshold (smoothedAvgAt E cfg p.1 p.2)) →
        (runTimed E cfg T st inps).2 ≠ some .silenceTimeout) :=
  ⟨fun st inp => stepTimed_voice_mono E cfg T st inp,
   fun st now b => stepFrame_silence_count E cfg T st now b,
   fun hneed => runTimed_not_silence E cfg T hneed⟩

/-- Witness for C2's amended statement: voice monotonicity at a concrete
active state, and a concrete one-frame run (frame of the wrong size for
this configuration, so no average is computed) that does not end in
`SilenceTimeout` under the default configuration. -/
theorem claim_C2_hysteresis_witness :
    ((stepTimed E0 cfgDefault T0 stVoice inpLoud1).state).voiceStarted = true ∧
    (runTimed E0 cfgDefault T0 (initState T0) [inpLoud1]).2 ≠ some .silenceTimeout := by
  constructor
  · exact (claim_C2_hysteresis E0 cfgDefault T0).1 stVoice inpLoud1 rfl
  · refine (claim_C2_hysteresis E0 cfgDefault T0).2.2
      (by norm_num [silenceFramesNeeded, framesPerSecond, pyInt, cfgDefault])
      [inpLoud1] (initState T0) ?_
    intro p hp
    have hm : p = (initState T0, inpLoud1) := by
      unfold traceTimed at hp
      cases hs : stepTimed E0 cfgDefault T0 (initState T0) inpLoud1 <;>
        rw [hs] at hp <;> simp [traceTimed] at hp <;> exact hp
    rw [hm]
    have hnone : smoothedAvgAt E0 cfgDefault (initState T0) inpLoud1 = none := by
      norm_num [smoothedAvgAt, inpLoud1, loudFrame, cfgDefault, List.cons_ne_nil]
    rw [hnone]
    trivial

/-! ## Claim C5: step and run lemmas -/

theorem traceTimed_cons {σ : Type} (E : List ℤ → ℚ) (cfg : VadConfig) (T : Transcriber σ)
    (st : SessState σ) (i : IterInput) (rest : List IterInput) :
    traceTimed E cfg T st (i :: rest) =
      (match stepTimed E cfg T st i with
       | .next st2 => (st, i) :: traceTimed E cfg T st2 rest
       | .ended _ _ => [(st, i)]) := rfl

theorem runTimed_cons {σ : Type} (E : List ℤ → ℚ) (cfg : VadConfig) (T : Transcriber σ)
    (st : SessState σ) (i : IterInput) (rest : List IterInput) :
    runTimed E cfg T st (i :: rest) =
      (match stepTimed E cfg T st i with
       | .next st2 => runTimed E cfg T st2 rest
       | .ended r st2 => (st2, some r)) := rfl

theorem stepTimed_initial_timeout {σ : Type} (E : List ℤ → ℚ) (cfg : VadConfig)
    (T : Transcriber σ) (st : SessState σ) (inp : IterInput)
    (hm : inp.manualStop = false) (hv : st.voiceStarted = false)
    (ht : initialTimeout cfg < inp.now - cfg.overallStart) :
    stepTimed E cfg T st inp = .ended .initialTimeout st := by
  unfold stepTimed
  rw [hm, if_neg (by simp), if_pos ⟨hv, ht⟩]

theorem stepTimed_exit_of_waiting {σ : Type} (E : List ℤ → ℚ) (cfg : VadConfig)
    (T : Transcriber σ) (st : SessState σ) (inp : IterInput) (r : ExitReason)
    (st' : SessState σ)
    (hv : st.voiceStarted = false) (hm : inp.manualStop = false)
    (hstep : stepTimed E cfg T st inp = .ended r st') :
    r = .initialTimeout ∧ initialTimeout cfg < inp.now - cfg.overallStart ∧ st' = st := by
  rcases inp with ⟨now, ms, rd⟩
  have hms : ms = false := hm
  subst hms
  unfold stepTimed at hstep
  rw [if_neg (by simp)] at hstep
  by_cases hto : st.voiceStarted = false ∧ initialTimeout cfg < now - cfg.overallStart
  · rw [if_pos hto] at hstep
    obtain ⟨h1, h2⟩ := StepResult.ended.inj hstep
    exact ⟨h1.symm, hto.2, h2.symm⟩
  · rw [if_neg hto] at hstep
    rw [if_neg (by simp [hv])] at hstep
    rcases rd with _ | b
    · exact StepResult.noConfusion hstep
    · dsimp only at hstep
      split_ifs at hstep with hb hlen
      unfold stepFrame at hstep
      rw [if_pos hv] at hstep
      split_ifs at hstep

theorem stepTimed_stays_waiting {σ : Type} (E : List ℤ → ℚ) (cfg : VadConfig)
    (T : Transcriber σ) (st : SessState σ) (inp : IterInput) (st' : SessState σ)
    (hv : st.voiceStarted = false)
    (havg : atMostThr cfg.energyThreshold (smoothedAvgAt E cfg st inp))
    (hstep : stepTimed E cfg T st inp = .next st') :
    st'.voiceStarted = false := by
  rcases inp with ⟨now, ms, rd⟩
  unfold stepTimed at hstep
  split_ifs at hstep with h1 h2 h3 h4
  rcases rd with _ | b
  · obtain h := StepResult.next.inj hstep
    rw [← h]
    exact hv
  · dsimp only at hstep
    split_ifs at hstep with hb hlen
    · obtain h := StepResult.next.inj hstep
      rw [← h]
      exact hv
    · obtain h := StepResult.next.inj hstep
      rw [← h]
      exact hv
    · have hsome : smoothedAvgAt E cfg st ⟨now, ms, some b⟩ =
          some (avgEnergy (pushHistory st.frameHistory (E b))) := by
        unfold smoothedAvgAt
        dsimp only
        rw [if_pos ⟨hb, not_not.mp hlen⟩]
      rw [hsome] at havg
      unfold stepFrame at hstep
      rw [if_pos hv] at hstep
      rw [if_neg (by exact fun hc => absurd havg (not_le.mpr hc))] at hstep
      obtain h := StepResult.next.inj hstep
      rw [← h]
      exact hv

theorem getLast?_cons_of_ne_nil {α : Type} (x : α) {l : List α} (h : l ≠ []) :
    (x :: l).getLast? = l.getLast? := by
  cases l with
  | nil => exact absurd rfl h
  | cons y t => exact List.getLast?_cons_cons

theorem traceTimed_ne_nil_of_exit {σ : Type} (E : List ℤ → ℚ) (cfg : VadConfig)
    (T : Transcriber σ) (st : SessState σ) (inps : List IterInput) (stf : SessState σ)
    (r : ExitReason) (hrun : runTimed E cfg T st inps = (stf, some r)) :
    traceTimed E cfg T st inps ≠ [] := by
  cases inps with
  | nil => simp [runTimed] at hrun
  | cons i rest =>
    rw [traceTimed_cons]
    cases hs : stepTimed E cfg T st i <;> simp

theorem runTimed_initial_timeout_only {σ : Type} (E : List ℤ → ℚ) (cfg : VadConfig)
    (T : Transcriber σ) :
    ∀ (inps : List IterInput) (st : SessState σ),
      st.voiceStarted = false →
      (∀ p ∈ traceTimed E cfg T st inps, p.2.manualStop = false) →
      (∀ p ∈ traceTimed E cfg T st inps,
        atMostThr cfg.energyThreshold (smoothedAvgAt E cfg p.1 p.2)) →
      ∀ (stf : SessState σ) (r : ExitReason), runTimed E cfg T st inps = (stf, some r) →
        r = .initialTimeout ∧
        (∀ p, (traceTimed E cfg T st inps).getLast? = some p →
          initialTimeout cfg < p.2.now - cfg.overallStart) := by
  intro inps
  induction inps with
  | nil =>
    intro st hv hm ha stf r hrun
    simp [runTimed] at hrun
  | cons i rest ih =>
    intro st hv hm ha stf r hrun
    have hmem : (st, i) ∈ traceTimed E cfg T st (i :: rest) := by
      rw [traceTimed_cons]
      cases hs : stepTimed E cfg T st i <;> simp
    have hmi : i.manualStop = false := hm (st, i) hmem
    have hai := ha (st, i) hmem
    rw [runTimed_cons] at hrun
    cases hs : stepTimed E cfg T st i with
    | next st' =>
      rw [hs] at hrun
      dsimp only at hrun
      have hv' : st'.voiceStarted = false :=
        stepTimed_stays_waiting E cfg T st i st' hv hai hs
      have htr : traceTimed E cfg T st (i :: rest) =
          (st, i) :: traceTimed E cfg T st' rest := by
        rw [traceTimed_cons, hs]
      have htail : ∀ p ∈ traceTimed E cfg T st' rest, p.2.manualStop = false := by
        intro p hp
        refine hm p ?_
        rw [htr]
        exact List.mem_cons_of_mem _ hp
      have hatail : ∀ p ∈ traceTimed E cfg T st' rest,
          atMostThr cfg.energyThreshold (smoothedAvgAt E cfg p.1 p.2) := by
        intro p hp
        refine ha p ?_
        rw [htr]
        exact List.mem_cons_of_mem _ hp
      obtain ⟨hr, hlast⟩ := ih st' hv' htail hatail stf r hrun
      refine ⟨hr, ?_⟩
      intro p hp
      refine hlast p ?_
      rw [htr] at hp
      have hne : traceTimed E cfg T st' rest ≠ [] :=
        traceTimed_ne_nil_of_exit E cfg T st' rest stf r hrun
      rwa [getLast?_cons_of_ne_nil _ hne] at hp
    | ended r2 st2 =>
      rw [hs] at hrun
      dsimp only at hrun
      rw [Prod.mk.injEq] at hrun
      obtain ⟨hst2, hr2⟩ := hrun
      rw [Option.some_inj] at hr2
      obtain ⟨hr, hto, hst⟩ := stepTimed_exit_of_waiting E cfg T st i r2 st2 hv hmi hs
      refine ⟨hr2 ▸ hr, ?_⟩
      intro p hp
      have htr : traceTimed E cfg T st (i :: rest) = [(st, i)] := by
        rw [traceTimed_cons, hs]
      rw [htr, List.getLast?_singleton] at hp
      obtain rfl := Option.some_inj.mp hp
      exact hto

/-! ## Claim C5: statement -/

/-- Counterexample to claim C5's "the recognizer is reset": on the
`InitialTimeout` path the code returns `None` directly (line 112) without
invoking `transcriber.reset()` — the exit's effect list is empty; the
only resets are at session start (line 85) and on the
manual-stop-without-speech path (line 106). -/
theorem claim_C5_counterexample :
    (runTimed E0 cfgDefault T0 (initState T0) [inpTimeout]).2 = some .initialTimeout ∧
    timedExitActions cfgDefault .initialTimeout = [] ∧
    Action.resetTranscriber ∉ timedExitActions cfgDefault .initialTimeout ∧
    captureTimedSession E0 cfgDefault T0 (initState T0) [inpTimeout] = some (none, []) := by
  have hstep : stepTimed E0 cfgDefault T0 (initState T0) inpTimeout =
      .ended .initialTimeout (initState T0) := by
    norm_num [stepTimed, cfgDefault, T0, initState, inpTimeout, initialTimeout]
  refine ⟨?_, rfl, by simp [timedExitActions], ?_⟩
  · rw [runTimed_cons, hstep]
  · unfold captureTimedSession
    rw [runTimed_cons, hstep]
    rfl

/-- Claim C5 amended: if no voice has started, no manual stop is observed
and the elapsed time since session start exceeds `initial_timeout`
(4 s for a follow-up, 8 s otherwise), the session ends as
`Ended(InitialTimeout)`: no transcript is produced and the session yields
`None` — but the recognizer is NOT reset on this path (it was reset at
session start).  For a stream with no manual stop whose smoothed energy
never exceeds `energy_threshold`, any exit is `InitialTimeout` and occurs
only at an iteration whose elapsed time exceeds the timeout — never
earlier. -/
theorem claim_C5_initial_timeout {σ : Type} (E : List ℤ → ℚ) (cfg : VadConfig)
    (T : Transcriber σ) :
    (∀ (st : SessState σ) (inp : IterInput), inp.manualStop = false →
      st.voiceStarted = false → initialTimeout cfg < inp.now - cfg.overallStart →
      stepTimed E cfg T st inp = .ended .initialTimeout st) ∧
    (∀ st : SessState σ, timedFinalize T .initialTimeout st = none) ∧
    timedExitActions cfg .initialTimeout = [] ∧
    Action.resetTranscriber ∉ timedExitActions cfg .initialTimeout ∧
    initialTimeout cfg = (if cfg.isFollowUp then 4 else 8) ∧
    (∀ (inps : List IterInput) (st : SessState σ),
      st.voiceStarted = false →
      (∀ p ∈ traceTimed E cfg T st inps, p.2.manualStop = false) →
      (∀ p ∈ traceTimed E cfg T st inps,
        atMostThr cfg.energyThreshold (smoothedAvgAt E cfg p.1 p.2)) →
      ∀ (stf : SessState σ) (r : ExitReason), runTimed E cfg T st inps = (stf, some r) →
        r = .initialTimeout ∧
        (∀ p, (traceTimed E cfg T st inps).getLast? = some p →
          initialTimeout cfg < p.2.now - cfg.overallStart)) :=
  ⟨fun st inp hm hv ht => stepTimed_initial_timeout E cfg T st inp hm hv ht,
   fun _ => rfl, rfl, by simp [timedExitActions], rfl,
   fun inps st => runTimed_initial_timeout_only E cfg T inps st⟩

/-- Witness for C5's amended statement: the timeout exit at 9 s of a
non-follow-up session started at 0, with the timeout bound discharged
concretely. -/
theorem claim_C5_initial_timeout_witness :
    stepTimed E0 cfgDefault T0 (initState T0) inpTimeout =
      .ended .initialTimeout (initState T0) ∧
    initialTimeout cfgDefault < inpTimeout.now - cfgDefault.overallStart := by
  have ht : initialTimeout cfgDefault < inpTimeout.now - cfgDefault.overallStart := by
    norm_num [initialTimeout, cfgDefault, inpTimeout]
  exact ⟨(claim_C5_initial_timeout E0 cfgDefault T0).1 (initState T0) inpTimeout rfl rfl ht, ht⟩

end LauraVad
